import Mathlib

set_option maxHeartbeats 1000000

/- Shallow embedding of src/api.py: the CoinGecko client with response
   caching, retry logic and the failure-tracking pause state machine.
   Timestamps are rationals, modelling the float seconds returned by
   time.time(); JSON values are a syntax tree; raised exceptions are
   modelled with Except, the error string abbreviating the exception
   type and message. -/

/-- JSON values as produced by response.json() and json.load.
Object fields model dict entries in insertion order; the keys of an
object built by the code are distinct. Nonfinite floats are outside
the model. -/
inductive JSON where
  | null
  | bool (b : Bool)
  | num (q : ℚ)
  | str (s : String)
  | arr (elems : List JSON)
  | obj (fields : List (String × JSON))

mutual

def JSON.deq : (a b : JSON) → Decidable (a = b)
  | .null, .null => isTrue rfl
  | .null, .bool _ => isFalse fun h => JSON.noConfusion h
  | .null, .num _ => isFalse fun h => JSON.noConfusion h
  | .null, .str _ => isFalse fun h => JSON.noConfusion h
  | .null, .arr _ => isFalse fun h => JSON.noConfusion h
  | .null, .obj _ => isFalse fun h => JSON.noConfusion h
  | .bool _, .null => isFalse fun h => JSON.noConfusion h
  | .bool a, .bool b =>
    match decEq a b with
    | isTrue h => isTrue (by rw [h])
    | isFalse h => isFalse (by intro hh; injection hh; exact h ‹_›)
  | .bool _, .num _ => isFalse fun h => JSON.noConfusion h
  | .bool _, .str _ => isFalse fun h => JSON.noConfusion h
  | .bool _, .arr _ => isFalse fun h => JSON.noConfusion h
  | .bool _, .obj _ => isFalse fun h => JSON.noConfusion h
  | .num _, .null => isFalse fun h => JSON.noConfusion h
  | .num _, .bool _ => isFalse fun h => JSON.noConfusion h
  | .num a, .num b =>
    match decEq a b with
    | isTrue h => isTrue (by rw [h])
    | isFalse h => isFalse (by intro hh; injection hh; exact h ‹_›)
  | .num _, .str _ => isFalse fun h => JSON.noConfusion h
  | .num _, .arr _ => isFalse fun h => JSON.noConfusion h
  | .num _, .obj _ => isFalse fun h => JSON.noConfusion h
  | .str _, .null => isFalse fun h => JSON.noConfusion h
  | .str _, .bool _ => isFalse fun h => JSON.noConfusion h
  | .str _, .num _ => isFalse fun h => JSON.noConfusion h
  | .str a, .str b =>
    match decEq a b with
    | isTrue h => isTrue (by rw [h])
    | isFalse h => isFalse (by intro hh; injection hh; exact h ‹_›)
  | .str _, .arr _ => isFalse fun h => JSON.noConfusion h
  | .str _, .obj _ => isFalse fun h => JSON.noConfusion h
  | .arr _, .null => isFalse fun h => JSON.noConfusion h
  | .arr _, .bool _ => isFalse fun h => JSON.noConfusion h
  | .arr _, .num _ => isFalse fun h => JSON.noConfusion h
  | .arr _, .str _ => isFalse fun h => JSON.noConfusion h
  | .arr a, .arr b =>
    match JSON.deqList a b with
    | isTrue h => isTrue (by rw [h])
    | isFalse h => isFalse (by intro hh; injection hh; exact h ‹_›)
  | .arr _, .obj _ => isFalse fun h => JSON.noConfusion h
  | .obj _, .null => isFalse fun h => JSON.noConfusion h
  | .obj _, .bool _ => isFalse fun h => JSON.noConfusion h
  | .obj _, .num _ => isFalse fun h => JSON.noConfusion h
  | .obj _, .str _ => isFalse fun h => JSON.noConfusion h
  | .obj _, .arr _ => isFalse fun h => JSON.noConfusion h
  | .obj a, .obj b =>
    match JSON.deqFields a b with
    | isTrue h => isTrue (by rw [h])
    | isFalse h => isFalse (by intro hh; injection hh; exact h ‹_›)

def JSON.deqList : (a b : List JSON) → Decidable (a = b)
  | [], [] => isTrue rfl
  | [], _ :: _ => isFalse (by intro h; cases h)
  | _ :: _, [] => isFalse (by intro h; cases h)
  | x :: xs, y :: ys =>
    match JSON.deq x y with
    | isTrue h1 =>
      match JSON.deqList xs ys with
      | isTrue h2 => isTrue (by rw [h1, h2])
      | isFalse h2 => isFalse (by intro h; injection h; exact h2 ‹_›)
    | isFalse h1 => isFalse (by intro h; injection h; exact h1 ‹_›)

def JSON.deqFields : (a b : List (String × JSON)) → Decidable (a = b)
  | [], [] => isTrue rfl
  | [], _ :: _ => isFalse (by intro h; cases h)
  | _ :: _, [] => isFalse (by intro h; cases h)
  | (k1, v1) :: xs, (k2, v2) :: ys =>
    match decEq k1 k2 with
    | isTrue hk =>
      match JSON.deq v1 v2 with
      | isTrue hv =>
        match JSON.deqFields xs ys with
        | isTrue ht => isTrue (by rw [hk, hv, ht])
        | isFalse ht => isFalse (by intro h; injection h; exact ht ‹_›)
      | isFalse hv =>
        isFalse (by intro h; injection h with hp _; injection hp; exact hv ‹_›)
    | isFalse hk =>
      isFalse (by intro h; injection h with hp _; injection hp; exact hk ‹_›)

end

instance : DecidableEq JSON := JSON.deq

/-- Python truthiness of a JSON value. -/
def pyTruthy : JSON → Bool
  | .null => false
  | .bool b => b
  | .num q => q != 0
  | .str s => s != ""
  | .arr elems => !elems.isEmpty
  | .obj fields => !fields.isEmpty

/-- First-match lookup in the field list of a JSON object, modelling
Python dict indexing (dict keys are unique, so first match is the
match). -/
def lookupField : List (String × JSON) → String → Option JSON
  | [], _ => none
  | (a, v) :: rest, key => if a = key then some v else lookupField rest key

/-- APIState from src/api.py lines 18 to 24: the failure tracker. -/
structure APIState where
  paused : Bool
  consecutive_failures : ℕ
  auto_pause_until : Option ℚ
  last_error : Option String
  deriving DecidableEq

/-- The dataclass defaults: paused false, zero failures, nothing armed. -/
def freshState : APIState := ⟨false, 0, none, none⟩

/-- APIState.should_skip (src/api.py lines 26 to 32). The check
`if self.auto_pause_until and time.time() < self.auto_pause_until`
tests Python truthiness of the optional float first, so a stored 0.0
counts as not armed. -/
def should_skip (now : ℚ) (s : APIState) : Bool :=
  s.paused ||
    (match s.auto_pause_until with
      | some u => if u = 0 then false else decide (now < u)
      | none => false)

/-- APIState.record_failure (src/api.py lines 34 to 40). Every call
with the incremented counter at or above 10 assigns
auto_pause_until := now + 30 * 60. -/
def record_failure (now : ℚ) (error : String) (s : APIState) : APIState :=
  if 10 ≤ s.consecutive_failures + 1 then
    { s with
      consecutive_failures := s.consecutive_failures + 1
      last_error := some error
      auto_pause_until := some (now + 30 * 60) }
  else
    { s with
      consecutive_failures := s.consecutive_failures + 1
      last_error := some error }

/-- APIState.record_success (src/api.py lines 42 to 45). -/
def record_success (s : APIState) : APIState :=
  { s with consecutive_failures := 0, last_error := none }

/-- APIState.resume (src/api.py lines 47 to 51). -/
def resume (s : APIState) : APIState :=
  { s with paused := false, auto_pause_until := none, consecutive_failures := 0 }

/-- Python int() truncates toward zero. -/
def pyInt (q : ℚ) : ℤ := if q < 0 then ⌈q⌉ else ⌊q⌋

/-- APIState.get_auto_resume_remaining (src/api.py lines 53 to 58).
The guard `if self.auto_pause_until` is a truthiness test on the
optional float, so any nonzero stored timestamp, past or future,
takes the max(0, int(remaining)) branch. -/
def get_auto_resume_remaining (now : ℚ) (s : APIState) : Option ℤ :=
  match s.auto_pause_until with
  | some u => if u = 0 then none else some (max 0 (pyInt (u - now)))
  | none => none

/-- A sequence of record_failure calls, each with its own timestamp and
message, applied in order. -/
def record_failures (calls : List (ℚ × String)) (s : APIState) : APIState :=
  calls.foldl (fun st c => record_failure c.1 c.2 st) s

/- ------------------------------------------------------------------ -/
/- The request pipeline: CoinGeckoAPI._make_request (src/api.py lines
   116 to 154) with the tenacity retry wrapper over do_request. -/

/-- Python str() of a JSON value, used for the message of a
RateLimitError built from a non-string error_message. Container and
numeric formatting is abbreviated; no theorem depends on those cases. -/
def pyStrJSON : JSON → String
  | .null => "None"
  | .bool true => "True"
  | .bool false => "False"
  | .num q => toString q
  | .str s => s
  | .arr _ => "<list>"
  | .obj _ => "<dict>"

/-- The message of the RateLimitError raised for an embedded error
body: status.get("error_message", "Rate limited") (src/api.py line
139). -/
def rateLimitMessage (sfields : List (String × JSON)) : String :=
  match lookupField sfields "error_message" with
  | some v => pyStrJSON v
  | none => "Rate limited"

/-- The embedded-error check of do_request (src/api.py lines 135 to
139): a dict body with a "status" key holding a dict whose
"error_code" compares equal to 429. The Python comparison
`status.get("error_code") == 429` is true exactly for a numeric 429
(int or float); it is false for strings, booleans, None and missing
keys. Returns the RateLimitError message when the check fires. -/
def embeddedRateLimit (d : JSON) : Option String :=
  match d with
  | .obj fields =>
    match lookupField fields "status" with
    | some (.obj sfields) =>
      match lookupField sfields "error_code" with
      | some (.num q) => if q = 429 then some (rateLimitMessage sfields) else none
      | _ => none
    | _ => none
  | _ => none

def embedded429 (d : JSON) : Bool :=
  (embeddedRateLimit d).isSome

/-- The observable outcome of one session.get attempt: either a
transport-level requests.RequestException, or an HTTP response with a
status code and a body (none when response.json() cannot decode it). -/
inductive AttemptOutcome where
  | transportError (msg : String)
  | response (status : ℕ) (body : Option JSON)

/-- The exceptions do_request can raise: RateLimitError (not retried
by tenacity, which only retries requests.RequestException), or a
retryable RequestException (transport failure, raise_for_status on a
non-2xx status, or an undecodable body). -/
inductive ReqError where
  | rateLimit (msg : String)
  | requestExc (msg : String)
  deriving DecidableEq

/-- One body of the tenacity-wrapped do_request (src/api.py lines 128
to 140): raise RateLimitError on HTTP 429 before raise_for_status,
raise_for_status on 4xx/5xx, decode the body, raise RateLimitError on
the embedded error shape, otherwise return the data. -/
def do_request (o : AttemptOutcome) : Except ReqError JSON :=
  match o with
  | .transportError m => .error (.requestExc m)
  | .response status body =>
    if status = 429 then .error (.rateLimit "Rate limited by API")
    else if 400 ≤ status ∧ status < 600 then
      .error (.requestExc ("HTTP error " ++ toString status))
    else
      match body with
      | none => .error (.requestExc "JSONDecodeError")
      | some d =>
        match embeddedRateLimit d with
        | some m => .error (.rateLimit m)
        | none => .ok d

/-- The tenacity loop: stop_after_attempt(attempts), reraise=True,
retry only on requests.RequestException. Attempt i consumes outs i;
the second component counts the network calls performed. A rateLimit
error does not match the retry predicate and is reraised at once. -/
def runAttempts (outs : ℕ → AttemptOutcome) (idx : ℕ) :
    ℕ → Except ReqError JSON × ℕ
  | 0 => (.error (.requestExc "RetryError"), 0)
  | fuel + 1 =>
    match do_request (outs idx) with
    | .ok d => (.ok d, 1)
    | .error (.rateLimit m) => (.error (.rateLimit m), 1)
    | .error (.requestExc m) =>
      if fuel = 0 then (.error (.requestExc m), 1)
      else
        let r := runAttempts outs (idx + 1) fuel
        (r.1, r.2 + 1)

/-- CoinGeckoAPI._make_request (src/api.py lines 116 to 154), with the
observer callback on_state_change modelled by obs: obs st = some e
means the callback raises an exception with message e (modelled as a
generic exception, caught by the `except Exception` arm when it fires
inside the try block). The result is the returned payload wrapped in
Except: an .error means an exception escapes _make_request. The third
component counts network calls. -/
def make_request (now : ℚ) (s : APIState) (outs : ℕ → AttemptOutcome)
    (attempts : ℕ) (obs : APIState → Option String) :
    Except String (Option JSON) × APIState × ℕ :=
  if should_skip now s then (.ok none, s, 0)
  else
    match runAttempts outs 0 attempts with
    | (.ok d, n) =>
      let s1 := record_success s
      match obs s1 with
      | none => (.ok (some d), s1, n)
      | some e =>
        let s2 := record_failure now e s1
        match obs s2 with
        | none => (.ok none, s2, n)
        | some e2 => (.error e2, s2, n)
    | (.error (.rateLimit m), n) =>
      let s1 := record_failure now ("Rate limited: " ++ m) s
      match obs s1 with
      | none => (.ok none, s1, n)
      | some e2 => (.error e2, s1, n)
    | (.error (.requestExc m), n) =>
      let s1 := record_failure now m s
      match obs s1 with
      | none => (.ok none, s1, n)
      | some e2 => (.error e2, s1, n)

/- ------------------------------------------------------------------ -/
/- The response cache (src/api.py lines 80 to 109): one file per key,
   the file modification time is the staleness signal. A CacheFile
   models a stored file holding a parseable payload; cache files
   written by _save_cache are always parseable, and a decode failure
   on a foreign file is treated as a miss just like an absent file. -/

structure CacheFile where
  data : JSON
  mtime : ℚ
  deriving DecidableEq

abbrev Cache := String → Option CacheFile

/-- CACHE_DURATION = timedelta(hours=24), in seconds. -/
def CACHE_DURATION : ℚ := 24 * 60 * 60

/-- CoinGeckoAPI._is_cache_valid (src/api.py lines 84 to 89):
the file exists and now - mtime < CACHE_DURATION, strictly. -/
def is_cache_valid (c : Cache) (now : ℚ) (name : String) : Bool :=
  match c name with
  | none => false
  | some f => decide (now - f.mtime < CACHE_DURATION)

/-- CoinGeckoAPI._load_cache (src/api.py lines 91 to 100). -/
def load_cache (c : Cache) (now : ℚ) (name : String) : Option JSON :=
  if is_cache_valid c now name then
    match c name with
    | some f => some f.data
    | none => none
  else none

/-- CoinGeckoAPI._save_cache (src/api.py lines 102 to 109): overwrite
the entry for the key with the payload, stamped with the current
time. -/
def save_cache (c : Cache) (now : ℚ) (name : String) (d : JSON) : Cache :=
  fun n => if n = name then some ⟨d, now⟩ else c n

/- ------------------------------------------------------------------ -/
/- Coin list retrieval, symbol resolution and the price request:
   CoinGeckoAPI.get_coin_list and CoinGeckoAPI.get_prices
   (src/api.py lines 170 to 242). -/

def btcEntry : JSON :=
  .obj [("id", .str "bitcoin"), ("symbol", .str "btc"), ("name", .str "Bitcoin")]

def ethEntry : JSON :=
  .obj [("id", .str "ethereum"), ("symbol", .str "eth"), ("name", .str "Ethereum")]

/-- The built-in fallback coin list (src/api.py lines 182 to 185). -/
def defaultCoinList : JSON := .arr [btcEntry, ethEntry]

/-- The environment of one public call: the clock, the cache directory
contents, the network outcomes feeding the coin-list request and the
price request, the configured retry attempt count, and the observer
callback. Time is held fixed across the call; the inner wait between
attempts does not affect any claim. -/
structure Env where
  now : ℚ
  cache : Cache
  coinListOutcomes : ℕ → AttemptOutcome
  priceOutcomes : ℕ → AttemptOutcome
  retry_attempts : ℕ
  obs : APIState → Option String

/-- The result of get_coin_list: the value returned (or the escaping
exception), the tracker state, the network calls performed, and the
cache afterwards. -/
structure CoinListOut where
  val : Except String JSON
  st : APIState
  calls : ℕ
  cache : Cache

/-- The cache-miss path of get_coin_list (src/api.py lines 176 to
185): fetch through the pipeline; a truthy payload is cached and
returned; otherwise the built-in default list is returned. -/
def coin_list_fetch (env : Env) (s : APIState) : CoinListOut :=
  match make_request env.now s env.coinListOutcomes env.retry_attempts env.obs with
  | (.error e, s1, n) => ⟨.error e, s1, n, env.cache⟩
  | (.ok none, s1, n) => ⟨.ok defaultCoinList, s1, n, env.cache⟩
  | (.ok (some d), s1, n) =>
    if pyTruthy d then ⟨.ok d, s1, n, save_cache env.cache env.now "coin_list" d⟩
    else ⟨.ok defaultCoinList, s1, n, env.cache⟩

/-- CoinGeckoAPI.get_coin_list (src/api.py lines 170 to 185): the
cached value is returned if present and truthy (`if cached:`),
otherwise the fetch path runs. -/
def get_coin_list (env : Env) (s : APIState) : CoinListOut :=
  match load_cache env.cache env.now "coin_list" with
  | some v => if pyTruthy v then ⟨.ok v, s, 0, env.cache⟩ else coin_list_fetch env s
  | none => coin_list_fetch env s

/-- Python iteration over a JSON value: list elements, dict keys, or
the characters of a string; anything else raises TypeError. -/
def pyIterate (v : JSON) : Except String (List JSON) :=
  match v with
  | .arr elems => .ok elems
  | .obj fields => .ok (fields.map (fun p => .str p.1))
  | .str s => .ok (s.toList.map (fun ch => .str ch.toString))
  | _ => .error "TypeError: object is not iterable"

/-- Python subscripting v[key] with a string key: dict lookup (KeyError
when absent); anything else raises TypeError. -/
def pySubscript (v : JSON) (key : String) : Except String JSON :=
  match v with
  | .obj fields =>
    match lookupField fields key with
    | some x => .ok x
    | none => .error ("KeyError: " ++ key)
  | _ => .error "TypeError: value cannot be subscripted with a string"

/-- Python str.lower() on the characters of the string; lowercases
ASCII letters, which covers ticker symbols. -/
def pyStrLower (s : String) : String :=
  String.mk (s.toList.map Char.toLower)

/-- Python v.lower(): defined on strings only. -/
def pyLower (v : JSON) : Except String String :=
  match v with
  | .str s => .ok (pyStrLower s)
  | _ => .error "AttributeError: lower"

/-- Dict assignment d[k] = v on a string-keyed dict: replace the value
in place when the key is present, append otherwise. -/
def dictAssignStr : List (String × JSON) → String → JSON → List (String × JSON)
  | [], k, v => [(k, v)]
  | (a, w) :: rest, k, v =>
    if a = k then (a, v) :: rest else (a, w) :: dictAssignStr rest k v

/-- The body of the dict comprehension building symbol_to_id
(src/api.py line 206): for each coin, key coin["symbol"].lower() maps
to value coin["id"]; any raised exception propagates. -/
def build_s2i_aux : List JSON → List (String × JSON) →
    Except String (List (String × JSON))
  | [], acc => .ok acc
  | coin :: rest, acc =>
    match pySubscript coin "symbol" with
    | .error e => .error e
    | .ok symv =>
      match pyLower symv with
      | .error e => .error e
      | .ok symLower =>
        match pySubscript coin "id" with
        | .error e => .error e
        | .ok idv => build_s2i_aux rest (dictAssignStr acc symLower idv)

def build_symbol_to_id (coin_list : JSON) : Except String (List (String × JSON)) :=
  match pyIterate coin_list with
  | .error e => .error e
  | .ok coins => build_s2i_aux coins []

/-- Python hashability of a JSON value: lists and dicts cannot be dict
keys. -/
def pyHashable : JSON → Bool
  | .arr _ => false
  | .obj _ => false
  | _ => true

/-- Dict assignment on the id-keyed symbol_map. -/
def dictAssignJ : List (JSON × String) → JSON → String → List (JSON × String)
  | [], k, v => [(k, v)]
  | (a, w) :: rest, k, v =>
    if a = k then (a, v) :: rest else (a, w) :: dictAssignJ rest k v

def lookupJ : List (JSON × String) → JSON → Option String
  | [], _ => none
  | (a, s) :: rest, k => if a = k then some s else lookupJ rest k

/-- The symbol resolution loop of get_prices (src/api.py lines 209 to
216): for each requested symbol, when its lowercase form is in
symbol_to_id, append the id to ids and assign
symbol_map[id] = lowercase symbol (raising TypeError on an unhashable
id value). -/
def resolve_aux (s2i : List (String × JSON)) :
    List String → List JSON → List (JSON × String) →
      Except String (List JSON × List (JSON × String))
  | [], ids, smap => .ok (ids, smap)
  | sym :: rest, ids, smap =>
    match lookupField s2i (pyStrLower sym) with
    | none => resolve_aux s2i rest ids smap
    | some cid =>
      if pyHashable cid then
        resolve_aux s2i rest (ids ++ [cid]) (dictAssignJ smap cid (pyStrLower sym))
      else .error "TypeError: unhashable type"

def resolve_ids (s2i : List (String × JSON)) (symbols : List String) :
    Except String (List JSON × List (JSON × String)) :=
  resolve_aux s2i symbols [] []

def allStrs : List JSON → Option (List String)
  | [] => some []
  | .str s :: rest => (allStrs rest).map (fun l => s :: l)
  | _ :: _ => none

/-- Python ",".join(ids): every element must be a string. -/
def pyJoin (l : List JSON) : Except String String :=
  match allStrs l with
  | some parts => .ok (String.intercalate "," parts)
  | none => .error "TypeError: sequence item is not a str instance"

def strContainsSub (hay needle : String) : Bool :=
  (List.range (hay.toList.length + 1)).any
    (fun i => needle.toList.isPrefixOf (hay.toList.drop i))

/-- Python `key in v` for a string key: dict key membership, list
element equality, substring test on a string; anything else raises
TypeError. -/
def pyIn (key : String) (v : JSON) : Except String Bool :=
  match v with
  | .obj fields => .ok (fields.any (fun p => decide (p.1 = key)))
  | .arr elems => .ok (elems.any (fun e => decide (e = .str key)))
  | .str s => .ok (strContainsSub s key)
  | _ => .error "TypeError: argument is not iterable"

def digitsVal (l : List Char) : ℕ :=
  l.foldl (fun n c => n * 10 + (c.toNat - 48)) 0

def parseExpPart (l : List Char) : Option ℤ :=
  match l with
  | [] => none
  | '-' :: r =>
    if r ≠ [] ∧ r.all Char.isDigit then some (-(digitsVal r : ℤ)) else none
  | '+' :: r =>
    if r ≠ [] ∧ r.all Char.isDigit then some ((digitsVal r : ℤ)) else none
  | r => if r.all Char.isDigit then some ((digitsVal r : ℤ)) else none

/-- Python float(string) on finite decimal literals: optional sign,
digits around an optional dot, optional exponent, surrounding
whitespace stripped. Nonfinite literals and underscore separators are
outside the model; no theorem depends on the string case. -/
def parseFloatStr (s : String) : Option ℚ :=
  let cs := s.trim.toList
  let signAndRest : ℚ × List Char :=
    match cs with
    | '-' :: r => (-1, r)
    | '+' :: r => (1, r)
    | _ => (1, cs)
  let sgn := signAndRest.1
  let cs1 := signAndRest.2
  let intPart := cs1.takeWhile Char.isDigit
  let rest1 := cs1.dropWhile Char.isDigit
  let fracAndRest : List Char × List Char :=
    match rest1 with
    | '.' :: r => (r.takeWhile Char.isDigit, r.dropWhile Char.isDigit)
    | _ => ([], rest1)
  let fracPart := fracAndRest.1
  let rest2 := fracAndRest.2
  if intPart.isEmpty && fracPart.isEmpty then none
  else
    let mant : ℚ :=
      sgn * ((digitsVal intPart : ℚ) + (digitsVal fracPart : ℚ) / ((10 : ℚ) ^ fracPart.length))
    match rest2 with
    | [] => some mant
    | e :: r =>
      if e = 'e' ∨ e = 'E' then
        match parseExpPart r with
        | some k => some (mant * (10 : ℚ) ^ k)
        | none => none
      else none

/-- Python float(v) (src/api.py line 235): numbers pass through, bools
are 1.0 or 0.0, numeric strings are parsed, everything else raises. -/
def pyFloat (v : JSON) : Except String ℚ :=
  match v with
  | .num q => .ok q
  | .bool b => .ok (if b then 1 else 0)
  | .str s =>
    match parseFloatStr s with
    | some q => .ok q
    | none => .error ("ValueError: could not convert string to float: " ++ s)
  | _ => .error "TypeError: float() argument must be a string or a real number"

def dictAssignQ : List (String × ℚ) → String → ℚ → List (String × ℚ)
  | [], k, v => [(k, v)]
  | (a, w) :: rest, k, v =>
    if a = k then (a, v) :: rest else (a, w) :: dictAssignQ rest k v

def lookupQ : List (String × ℚ) → String → Option ℚ
  | [], _ => none
  | (a, q) :: rest, k => if a = k then some q else lookupQ rest k

/-- The result-mapping loop of get_prices (src/api.py lines 232 to
236): for coin_id, prices in data.items(), when coin_id is a
symbol_map key and vs_currency is in prices, assign
result[symbol_map[coin_id]] = float(prices[vs_currency]); any raised
exception propagates. The data keys are strings, so a symbol_map key
matches only when it is the corresponding string value. -/
def map_prices_aux (smap : List (JSON × String)) (vs : String) :
    List (String × JSON) → List (String × ℚ) →
      Except String (List (String × ℚ))
  | [], acc => .ok acc
  | (coin_id, prices) :: rest, acc =>
    match lookupJ smap (.str coin_id) with
    | none => map_prices_aux smap vs rest acc
    | some sym =>
      match pyIn vs prices with
      | .error e => .error e
      | .ok false => map_prices_aux smap vs rest acc
      | .ok true =>
        match pySubscript prices vs with
        | .error e => .error e
        | .ok pv =>
          match pyFloat pv with
          | .error e => .error e
          | .ok q => map_prices_aux smap vs rest (dictAssignQ acc sym q)

/-- data.items() requires a dict. -/
def map_prices (data : JSON) (smap : List (JSON × String)) (vs : String) :
    Except String (List (String × ℚ)) :=
  match data with
  | .obj items => map_prices_aux smap vs items []
  | _ => .error "AttributeError: items"

/-- The result of get_prices: the returned price map (or the escaping
exception), the tracker state, the network calls of the coin-list
step and of the price request, and the cache afterwards. -/
structure PricesOut where
  val : Except String (List (String × ℚ))
  st : APIState
  coinCalls : ℕ
  priceCalls : ℕ
  cache : Cache

/-- CoinGeckoAPI.get_prices (src/api.py lines 187 to 237). -/
def get_prices (symbols : List String) (vs_currency : String) (env : Env)
    (s : APIState) : PricesOut :=
  if symbols.isEmpty then ⟨.ok [], s, 0, 0, env.cache⟩
  else if should_skip env.now s then ⟨.ok [], s, 0, 0, env.cache⟩
  else
    let cl := get_coin_list env s
    match cl.val with
    | .error e => ⟨.error e, cl.st, cl.calls, 0, cl.cache⟩
    | .ok coin_list =>
      match build_symbol_to_id coin_list with
      | .error e => ⟨.error e, cl.st, cl.calls, 0, cl.cache⟩
      | .ok s2i =>
        match resolve_ids s2i symbols with
        | .error e => ⟨.error e, cl.st, cl.calls, 0, cl.cache⟩
        | .ok (ids, smap) =>
          if ids.isEmpty then ⟨.ok [], cl.st, cl.calls, 0, cl.cache⟩
          else
            match pyJoin ids with
            | .error e => ⟨.error e, cl.st, cl.calls, 0, cl.cache⟩
            | .ok _ =>
              match make_request env.now cl.st env.priceOutcomes
                  env.retry_attempts env.obs with
              | (.error e, s2, n) => ⟨.error e, s2, cl.calls, n, cl.cache⟩
              | (.ok none, s2, n) => ⟨.ok [], s2, cl.calls, n, cl.cache⟩
              | (.ok (some d), s2, n) =>
                if pyTruthy d then
                  match map_prices d smap vs_currency with
                  | .error e => ⟨.error e, s2, cl.calls, n, cl.cache⟩
                  | .ok res => ⟨.ok res, s2, cl.calls, n, cl.cache⟩
                else ⟨.ok [], s2, cl.calls, n, cl.cache⟩

/-- CoinGeckoAPI.get_price (src/api.py lines 239 to 242). -/
def get_price (symbol : String) (vs_currency : String) (env : Env)
    (s : APIState) : Except String (Option ℚ) × APIState :=
  let r := get_prices [symbol] vs_currency env s
  (r.val.map (fun res => lookupQ res (pyStrLower symbol)), r.st)

/-- A concrete environment: empty cache, failing network, one attempt,
no observer. -/
def env8 : Env :=
  ⟨0, fun _ => none, fun _ => .transportError "boom",
    fun _ => .transportError "boom", 1, fun _ => none⟩

/-- A concrete environment for C3: empty cache, the coin-list request
returns a one-coin list, the price request returns a 200 body whose
price value for usd is null. -/
def env3 : Env :=
  ⟨0, fun _ => none,
    (fun _ => .response 200 (some (JSON.arr [btcEntry]))),
    (fun _ => .response 200 (some (.obj [("bitcoin", .obj [("usd", .null)])]))),
    3, fun _ => none⟩

/-- A concrete environment for C7: empty cache, a one-coin coin list
from the network, and a 200 price response with a numeric usd value. -/
def env7 : Env :=
  ⟨0, fun _ => none,
    (fun _ => .response 200 (some (JSON.arr [btcEntry]))),
    (fun _ => .response 200 (some (.obj [("bitcoin", .obj [("usd", .num 50000)])]))),
    3, fun _ => none⟩

@[simp] lemma record_failure_consecutive (now : ℚ) (m : String) (s : APIState) :
    (record_failure now m s).consecutive_failures = s.consecutive_failures + 1 := by
  unfold record_failure
  split <;> rfl

@[simp] lemma record_failure_paused (now : ℚ) (m : String) (s : APIState) :
    (record_failure now m s).paused = s.paused := by
  unfold record_failure
  split <;> rfl

@[simp] lemma record_failure_last_error (now : ℚ) (m : String) (s : APIState) :
    (record_failure now m s).last_error = some m := by
  unfold record_failure
  split <;> rfl

lemma record_failure_armed (now : ℚ) (m : String) (s : APIState)
    (h : 9 ≤ s.consecutive_failures) :
    (record_failure now m s).auto_pause_until = some (now + 30 * 60) := by
  unfold record_failure
  rw [if_pos (by omega : 10 ≤ s.consecutive_failures + 1)]

lemma record_failures_append (a b : List (ℚ × String)) (s : APIState) :
    record_failures (a ++ b) s = record_failures b (record_failures a s) := by
  unfold record_failures
  exact List.foldl_append _ _ _ _

lemma record_failures_consecutive (l : List (ℚ × String)) (s : APIState) :
    (record_failures l s).consecutive_failures =
      s.consecutive_failures + l.length := by
  induction l generalizing s with
  | nil => simp [record_failures]
  | cons c tl ih =>
    have h1 : record_failures (c :: tl) s = record_failures tl (record_failure c.1 c.2 s) := rfl
    rw [h1, ih]
    simp
    omega

lemma record_failures_paused (l : List (ℚ × String)) (s : APIState) :
    (record_failures l s).paused = s.paused := by
  induction l generalizing s with
  | nil => rfl
  | cons c tl ih =>
    have h1 : record_failures (c :: tl) s = record_failures tl (record_failure c.1 c.2 s) := rfl
    rw [h1, ih]
    simp

@[simp] lemma resume_should_skip (t : ℚ) (s : APIState) :
    should_skip t (resume s) = false := by
  simp [resume, should_skip]

/-- Claim C1: starting from the fresh tracker state, after exactly 10
consecutive record_failure calls (9 calls followed by a 10th at time
t10 with a nonnegative clock) the auto-pause window is armed at
t10 + 30 minutes, should_skip is true at every time strictly before
that armed timestamp, and after resume() it is false. -/
theorem c1_ten_failures_arm_auto_pause
    (init : List (ℚ × String)) (t10 : ℚ) (m : String) (t : ℚ)
    (hlen : init.length = 9) (h0 : 0 ≤ t10) (ht : t < t10 + 30 * 60) :
    (record_failures (init ++ [(t10, m)]) freshState).auto_pause_until
        = some (t10 + 30 * 60) ∧
    should_skip t (record_failures (init ++ [(t10, m)]) freshState) = true ∧
    should_skip t (resume (record_failures (init ++ [(t10, m)]) freshState)) = false := by
  have happ := record_failures_append init [(t10, m)] freshState
  have hstep : record_failures [(t10, m)] (record_failures init freshState)
      = record_failure t10 m (record_failures init freshState) := rfl
  have hcf : (record_failures init freshState).consecutive_failures = 9 := by
    rw [record_failures_consecutive]
    simp [freshState, hlen]
  have hpaused : (record_failures init freshState).paused = false := by
    rw [record_failures_paused]
    rfl
  have harm : (record_failures (init ++ [(t10, m)]) freshState).auto_pause_until
      = some (t10 + 30 * 60) := by
    rw [happ, hstep, record_failure_armed]
    omega
  refine ⟨harm, ?_, by simp⟩
  have hp2 : (record_failures (init ++ [(t10, m)]) freshState).paused = false := by
    rw [happ, hstep]
    simp [hpaused]
  unfold should_skip
  rw [hp2, harm]
  simp only [Bool.false_or]
  have hne : t10 + 30 * 60 ≠ (0 : ℚ) := by nlinarith
  simp [hne, ht]

/-- Concrete instance of C1: nine failures at time 0, a tenth at time
0, queried at time 5. -/
theorem c1_witness :
    (List.replicate 9 ((0 : ℚ), "e")).length = 9 ∧ (0 : ℚ) ≤ 0 ∧
      ((5 : ℚ) < 0 + 30 * 60) ∧
    ((record_failures (List.replicate 9 ((0 : ℚ), "e") ++ [((0 : ℚ), "e")]) freshState).auto_pause_until
        = some (0 + 30 * 60) ∧
      should_skip 5 (record_failures (List.replicate 9 ((0 : ℚ), "e") ++ [((0 : ℚ), "e")]) freshState) = true ∧
      should_skip 5 (resume (record_failures (List.replicate 9 ((0 : ℚ), "e") ++ [((0 : ℚ), "e")]) freshState)) = false) :=
  ⟨by simp, le_refl 0, by norm_num,
    c1_ten_failures_arm_auto_pause (List.replicate 9 ((0 : ℚ), "e")) 0 "e" 5
      (by simp) (le_refl 0) (by norm_num)⟩

/-- Counterexample to claim C2 as stated: after ten failures at time 0
the window is armed at 1800, and an eleventh record_failure at time
100 moves auto_pause_until to 1900, so the armed value does not stay
unchanged. -/
theorem c2_counterexample :
    (record_failures (List.replicate 10 ((0 : ℚ), "e")) freshState).auto_pause_until
        = some 1800 ∧
    (record_failure 100 "e" (record_failures (List.replicate 10 ((0 : ℚ), "e")) freshState)).auto_pause_until
        = some 1900 ∧
    some (1800 : ℚ) ≠ some (1900 : ℚ) := by
  have h10 : record_failures (List.replicate 10 ((0 : ℚ), "e")) freshState
      = ⟨false, 10, some (0 + 30 * 60), some "e"⟩ := by
    norm_num [record_failures, record_failure, freshState, List.replicate]
  refine ⟨?_, ?_, ?_⟩
  · rw [h10]
    norm_num
  · rw [h10]
    norm_num [record_failure]
  · intro h
    rw [Option.some.injEq] at h
    norm_num at h

/-- Claim C2 amended: once the counter is at or above the threshold,
every further record_failure still increments consecutive_failures and
sets last_error, and it re-arms auto_pause_until to the current time
plus 30 minutes, extending the window whenever the clock has advanced. -/
theorem c2_refailure_rearms_window (s : APIState) (now : ℚ) (m : String)
    (h : 10 ≤ s.consecutive_failures) :
    record_failure now m s =
      { s with
        consecutive_failures := s.consecutive_failures + 1
        last_error := some m
        auto_pause_until := some (now + 30 * 60) } := by
  unfold record_failure
  rw [if_pos (by omega : 10 ≤ s.consecutive_failures + 1)]

/-- Concrete instance of the amended C2. -/
theorem c2_witness :
    10 ≤ (⟨false, 10, some 1800, some "e"⟩ : APIState).consecutive_failures ∧
    record_failure 100 "e" (⟨false, 10, some 1800, some "e"⟩ : APIState) =
      { (⟨false, 10, some 1800, some "e"⟩ : APIState) with
        consecutive_failures := (⟨false, 10, some 1800, some "e"⟩ : APIState).consecutive_failures + 1
        last_error := some "e"
        auto_pause_until := some (100 + 30 * 60) } :=
  ⟨by norm_num,
    c2_refailure_rearms_window ⟨false, 10, some 1800, some "e"⟩ 100 "e" (by norm_num)⟩

/-- Counterexample to claim C9 as stated: with auto_pause_until armed
at 100 and the clock at 200 the window has elapsed, should_skip is
false, yet get_auto_resume_remaining returns some 0 rather than none. -/
theorem c9_counterexample :
    should_skip 200 (⟨false, 10, some 100, none⟩ : APIState) = false ∧
    get_auto_resume_remaining 200 (⟨false, 10, some 100, none⟩ : APIState) = some 0 := by
  constructor
  · norm_num [should_skip]
  · norm_num [get_auto_resume_remaining, pyInt, Int.ceil_le]

/-- Claim C9 amended: whenever auto_pause_until holds a nonzero
timestamp u, get_auto_resume_remaining returns max(0, int(u - now)),
which is the whole seconds until the window elapses floored at 0 and
is in particular 0 once the window has elapsed; it returns none only
when auto_pause_until is unset, in particular after resume(). -/
theorem c9_remaining_formula (s : APIState) (u now : ℚ)
    (h1 : s.auto_pause_until = some u) (h2 : u ≠ 0) :
    get_auto_resume_remaining now s = some (max 0 (pyInt (u - now))) ∧
    get_auto_resume_remaining now (resume s) = none := by
  constructor
  · simp [get_auto_resume_remaining, h1, h2]
  · simp [get_auto_resume_remaining, resume]

/-- Concrete instance of the amended C9. -/
theorem c9_witness :
    (⟨false, 10, some 100, none⟩ : APIState).auto_pause_until = some 100 ∧
    (100 : ℚ) ≠ 0 ∧
    (get_auto_resume_remaining 40 (⟨false, 10, some 100, none⟩ : APIState)
        = some (max 0 (pyInt (100 - 40))) ∧
      get_auto_resume_remaining 40 (resume (⟨false, 10, some 100, none⟩ : APIState)) = none) :=
  ⟨rfl, by norm_num,
    c9_remaining_formula ⟨false, 10, some 100, none⟩ 100 40 rfl (by norm_num)⟩

lemma embeddedRateLimit_isSome_iff (d : JSON) :
    (embeddedRateLimit d).isSome = true ↔
      ∃ fields sfields, d = JSON.obj fields ∧
        lookupField fields "status" = some (.obj sfields) ∧
        lookupField sfields "error_code" = some (.num 429) := by
  constructor
  · intro h
    unfold embeddedRateLimit at h
    repeat split at h
    any_goals simp at h
    rename_i d fields x1 sfields heq1 x2 q heq2 hq
    exact ⟨fields, sfields, rfl, heq1, hq ▸ heq2⟩
  · rintro ⟨f, sf, rfl, h1, h2⟩
    unfold embeddedRateLimit
    simp [h1, h2]

lemma runAttempts_rateLimit (outs : ℕ → AttemptOutcome) (idx : ℕ) (m : String)
    (fuel : ℕ) (h : do_request (outs idx) = .error (.rateLimit m)) :
    runAttempts outs idx (fuel + 1) = (.error (.rateLimit m), 1) := by
  unfold runAttempts
  rw [h]

lemma runAttempts_ok (outs : ℕ → AttemptOutcome) (idx : ℕ) (d : JSON)
    (fuel : ℕ) (h : do_request (outs idx) = .ok d) :
    runAttempts outs idx (fuel + 1) = (.ok d, 1) := by
  unfold runAttempts
  rw [h]

/-- With a benign observer and no skip, _make_request reduces to the
retry loop outcome followed by exactly one record_success or
record_failure. -/
lemma make_request_run (now : ℚ) (s : APIState) (outs : ℕ → AttemptOutcome)
    (attempts : ℕ) (obs : APIState → Option String)
    (hskip : should_skip now s = false) (hobs : ∀ st, obs st = none) :
    make_request now s outs attempts obs =
      (match runAttempts outs 0 attempts with
        | (.ok d, n) => (.ok (some d), record_success s, n)
        | (.error (.rateLimit m), n) =>
          (.ok none, record_failure now ("Rate limited: " ++ m) s, n)
        | (.error (.requestExc m), n) => (.ok none, record_failure now m s, n)) := by
  unfold make_request
  rw [hskip]
  rcases hr : runAttempts outs 0 attempts with ⟨res, n⟩
  cases res with
  | ok d => simp [hobs]
  | error e =>
    cases e with
    | rateLimit m => simp [hobs]
    | requestExc m => simp [hobs]

/-- Claim C4: a rate-limit outcome on attempt 1 (HTTP 429, or a 200
body carrying the embedded error_code 429) short-circuits the
3-attempt budget: exactly one network call is made, the outcome is
recorded through record_failure with a message starting
"Rate limited: ", and no payload is returned. -/
theorem c4_rate_limit_short_circuit
    (now : ℚ) (s : APIState) (outs : ℕ → AttemptOutcome)
    (obs : APIState → Option String)
    (hskip : should_skip now s = false)
    (hobs : ∀ st, obs st = none)
    (hrl : (∃ b, outs 0 = .response 429 b) ∨
           (∃ d, outs 0 = .response 200 (some d) ∧ embedded429 d = true)) :
    ∃ m, make_request now s outs 3 obs =
      (.ok none, record_failure now ("Rate limited: " ++ m) s, 1) := by
  have hdo : ∃ m, do_request (outs 0) = .error (.rateLimit m) := by
    rcases hrl with ⟨b, hb⟩ | ⟨d, hd, h429⟩
    · exact ⟨"Rate limited by API", by rw [hb]; rfl⟩
    · rcases hm : embeddedRateLimit d with _ | m
      · unfold embedded429 at h429
        rw [hm] at h429
        simp at h429
      · refine ⟨m, ?_⟩
        rw [hd]
        unfold do_request
        norm_num
        rw [hm]
  obtain ⟨m, hm⟩ := hdo
  refine ⟨m, ?_⟩
  rw [make_request_run now s outs 3 obs hskip hobs,
    runAttempts_rateLimit outs 0 m 2 hm]

/-- Concrete instance of C4: HTTP status 429 on the first attempt. -/
theorem c4_witness :
    should_skip 0 freshState = false ∧
    (∀ st : APIState, (fun _ : APIState => (none : Option String)) st = none) ∧
    ((∃ b, (fun _ : ℕ => AttemptOutcome.response 429 none) 0
          = AttemptOutcome.response 429 b) ∨
      (∃ d, (fun _ : ℕ => AttemptOutcome.response 429 none) 0
          = AttemptOutcome.response 200 (some d) ∧ embedded429 d = true)) ∧
    (∃ m, make_request 0 freshState (fun _ => .response 429 none) 3 (fun _ => none) =
      (.ok none, record_failure 0 ("Rate limited: " ++ m) freshState, 1)) :=
  ⟨rfl, fun _ => rfl, Or.inl ⟨none, rfl⟩,
    c4_rate_limit_short_circuit 0 freshState (fun _ => .response 429 none)
      (fun _ => none) rfl (fun _ => rfl) (Or.inl ⟨none, rfl⟩)⟩

/-- Claim C10: the embedded-error check fires only for the exact shape
of a top-level dict with a "status" dict whose "error_code" is the
number 429; any other parseable 2xx body is classified as success,
record_success is called, and the body is returned as the payload in a
single call. -/
theorem c10_embedded_error_exact_shape
    (d : JSON) (now : ℚ) (s : APIState) (attempts : ℕ)
    (obs : APIState → Option String)
    (hskip : should_skip now s = false) (hobs : ∀ st, obs st = none)
    (hatt : 1 ≤ attempts)
    (hshape : ¬ ∃ fields sfields, d = JSON.obj fields ∧
        lookupField fields "status" = some (.obj sfields) ∧
        lookupField sfields "error_code" = some (.num 429)) :
    embedded429 d = false ∧
    do_request (.response 200 (some d)) = .ok d ∧
    make_request now s (fun _ => .response 200 (some d)) attempts obs =
      (.ok (some d), record_success s, 1) := by
  have hnone : embeddedRateLimit d = none := by
    rcases hh : embeddedRateLimit d with _ | m
    · rfl
    · exact absurd ((embeddedRateLimit_isSome_iff d).mp (by rw [hh]; rfl)) hshape
  have h429 : embedded429 d = false := by
    unfold embedded429
    rw [hnone]
    rfl
  have hdo : do_request (.response 200 (some d)) = .ok d := by
    unfold do_request
    norm_num
    rw [hnone]
  refine ⟨h429, hdo, ?_⟩
  obtain ⟨k, rfl⟩ : ∃ k, attempts = k + 1 := ⟨attempts - 1, by omega⟩
  rw [make_request_run now s _ (k + 1) obs hskip hobs,
    runAttempts_ok _ 0 d k hdo]

/-- Concrete instance of C10: a 200 body whose status.error_code is
200, not 429, is returned as a successful payload. -/
theorem c10_witness :
    should_skip 0 freshState = false ∧
    (∀ st : APIState, (fun _ : APIState => (none : Option String)) st = none) ∧
    (1 : ℕ) ≤ 3 ∧
    (¬ ∃ fields sfields,
        JSON.obj [("status", JSON.obj [("error_code", JSON.num 200)])] = JSON.obj fields ∧
        lookupField fields "status" = some (.obj sfields) ∧
        lookupField sfields "error_code" = some (.num 429)) ∧
    (embedded429 (JSON.obj [("status", JSON.obj [("error_code", JSON.num 200)])]) = false ∧
      do_request (.response 200 (some (JSON.obj [("status", JSON.obj [("error_code", JSON.num 200)])]))) =
        .ok (JSON.obj [("status", JSON.obj [("error_code", JSON.num 200)])]) ∧
      make_request 0 freshState
          (fun _ => .response 200 (some (JSON.obj [("status", JSON.obj [("error_code", JSON.num 200)])])))
          3 (fun _ => none) =
        (.ok (some (JSON.obj [("status", JSON.obj [("error_code", JSON.num 200)])])),
          record_success freshState, 1)) := by
  have hcomp : embedded429 (JSON.obj [("status", JSON.obj [("error_code", JSON.num 200)])]) = false := by
    decide
  have hs : ¬ ∃ fields sfields,
      JSON.obj [("status", JSON.obj [("error_code", JSON.num 200)])] = JSON.obj fields ∧
      lookupField fields "status" = some (.obj sfields) ∧
      lookupField sfields "error_code" = some (.num 429) := by
    intro hex
    have h1 := (embeddedRateLimit_isSome_iff _).mpr hex
    unfold embedded429 at hcomp
    rw [h1] at hcomp
    exact Bool.noConfusion hcomp
  exact ⟨rfl, fun _ => rfl, by norm_num, hs,
    c10_embedded_error_exact_shape _ 0 freshState 3 (fun _ => none) rfl
      (fun _ => rfl) (by norm_num) hs⟩

/-- Claim C5: put followed by get within the 24-hour TTL returns the
payload exactly, and a get on an entry whose age is at least the TTL
reports a miss even though the underlying file still holds its value. -/
theorem c5_cache_roundtrip_and_ttl
    (c : Cache) (k : String) (p : JSON) (t t2 t3 : ℚ) (f : CacheFile)
    (hfresh : t2 - t < 24 * 60 * 60)
    (hheld : c k = some f)
    (hstale : 24 * 60 * 60 ≤ t3 - f.mtime) :
    load_cache (save_cache c t k p) t2 k = some p ∧
    load_cache c t3 k = none ∧
    c k = some f := by
  refine ⟨?_, ?_, hheld⟩
  · have hv : is_cache_valid (save_cache c t k p) t2 k = true := by
      unfold is_cache_valid save_cache
      simp [CACHE_DURATION]
      linarith
    unfold load_cache
    rw [hv]
    unfold save_cache
    simp
  · have hv : is_cache_valid c t3 k = false := by
      unfold is_cache_valid
      rw [hheld]
      simp [CACHE_DURATION]
      linarith
    unfold load_cache
    rw [hv]
    simp

/-- Concrete instance of C5. -/
theorem c5_witness :
    ((200 : ℚ) - 100 < 24 * 60 * 60) ∧
    ((fun n => if n = "coin_list" then some (⟨JSON.num 7, 0⟩ : CacheFile) else none) :
        Cache) "coin_list" = some ⟨JSON.num 7, 0⟩ ∧
    ((24 : ℚ) * 60 * 60 ≤ 90000 - (⟨JSON.num 7, (0 : ℚ)⟩ : CacheFile).mtime) ∧
    (load_cache
        (save_cache
          ((fun n => if n = "coin_list" then some (⟨JSON.num 7, 0⟩ : CacheFile) else none) : Cache)
          100 "coin_list" (JSON.num 9))
        200 "coin_list" = some (JSON.num 9) ∧
      load_cache
        ((fun n => if n = "coin_list" then some (⟨JSON.num 7, 0⟩ : CacheFile) else none) : Cache)
        90000 "coin_list" = none ∧
      ((fun n => if n = "coin_list" then some (⟨JSON.num 7, 0⟩ : CacheFile) else none) :
          Cache) "coin_list" = some ⟨JSON.num 7, 0⟩) :=
  ⟨by norm_num, by simp, by norm_num,
    c5_cache_roundtrip_and_ttl _ "coin_list" (JSON.num 9) 100 200 90000
      ⟨JSON.num 7, 0⟩ (by norm_num) (by simp) (by norm_num)⟩

lemma make_request_benign_ok (now : ℚ) (s : APIState) (outs : ℕ → AttemptOutcome)
    (attempts : ℕ) (obs : APIState → Option String) (hobs : ∀ st, obs st = none) :
    ∃ r st2 n, make_request now s outs attempts obs = (.ok r, st2, n) := by
  by_cases hs : should_skip now s
  · exact ⟨none, s, 0, by simp [make_request, hs]⟩
  · have hs' : should_skip now s = false := by simpa using hs
    rw [make_request_run now s outs attempts obs hs' hobs]
    cases hrn : runAttempts outs 0 attempts with
    | mk res n =>
      cases res with
      | ok d => exact ⟨some d, _, n, rfl⟩
      | error e =>
        cases e with
        | rateLimit m => exact ⟨none, _, n, rfl⟩
        | requestExc m => exact ⟨none, _, n, rfl⟩

lemma coin_list_fetch_spec (env : Env) (s : APIState)
    (hobs : ∀ st, env.obs st = none) :
    ∃ v, (coin_list_fetch env s).val = .ok v ∧ pyTruthy v = true ∧
      (((make_request env.now s env.coinListOutcomes env.retry_attempts env.obs).1
          = .ok (some v) ∧
        (coin_list_fetch env s).cache = save_cache env.cache env.now "coin_list" v) ∨
       v = defaultCoinList) := by
  obtain ⟨r, st2, n, hmr⟩ :=
    make_request_benign_ok env.now s env.coinListOutcomes env.retry_attempts env.obs hobs
  unfold coin_list_fetch
  rw [hmr]
  cases r with
  | none => exact ⟨defaultCoinList, rfl, by decide, Or.inr rfl⟩
  | some d =>
    by_cases ht : pyTruthy d
    · refine ⟨d, by simp [ht], ht, Or.inl ⟨rfl, by simp [ht]⟩⟩
    · have ht' : pyTruthy d = false := by simpa using ht
      exact ⟨defaultCoinList, by simp [ht'], by decide, Or.inr rfl⟩

/-- Claim C8: for every cache state and network outcome (with a benign
observer), get_coin_list returns a truthy value: the valid cached
list, a freshly fetched payload which it writes to the cache, or the
built-in default list, which contains the bitcoin and ethereum
entries. -/
theorem c8_coin_list_never_empty (env : Env) (s : APIState)
    (hobs : ∀ st, env.obs st = none) :
    ∃ v, (get_coin_list env s).val = .ok v ∧ pyTruthy v = true ∧
      (load_cache env.cache env.now "coin_list" = some v ∨
        ((make_request env.now s env.coinListOutcomes env.retry_attempts env.obs).1
            = .ok (some v) ∧
          (get_coin_list env s).cache = save_cache env.cache env.now "coin_list" v) ∨
        (v = defaultCoinList ∧ defaultCoinList = .arr [btcEntry, ethEntry] ∧
          btcEntry ∈ [btcEntry, ethEntry] ∧ ethEntry ∈ [btcEntry, ethEntry])) := by
  unfold get_coin_list
  cases hl : load_cache env.cache env.now "coin_list" with
  | some v =>
    by_cases ht : pyTruthy v
    · exact ⟨v, by simp [ht], ht, Or.inl rfl⟩
    · have ht' : pyTruthy v = false := by simpa using ht
      obtain ⟨w, h1, h2, h3⟩ := coin_list_fetch_spec env s hobs
      refine ⟨w, by simp [ht', h1], h2, ?_⟩
      rcases h3 with ⟨ha, hb⟩ | hd
      · exact Or.inr (Or.inl ⟨ha, by simp [ht', hb]⟩)
      · exact Or.inr (Or.inr ⟨hd, rfl, by simp, by simp⟩)
  | none =>
    obtain ⟨w, h1, h2, h3⟩ := coin_list_fetch_spec env s hobs
    refine ⟨w, h1, h2, ?_⟩
    rcases h3 with ⟨ha, hb⟩ | hd
    · exact Or.inr (Or.inl ⟨ha, hb⟩)
    · exact Or.inr (Or.inr ⟨hd, rfl, by simp, by simp⟩)

/-- Concrete instance of C8: total failure yields the default list. -/
theorem c8_witness :
    (∀ st : APIState, env8.obs st = none) ∧
    (∃ v, (get_coin_list env8 freshState).val = .ok v ∧ pyTruthy v = true ∧
      (load_cache env8.cache env8.now "coin_list" = some v ∨
        ((make_request env8.now freshState env8.coinListOutcomes env8.retry_attempts
            env8.obs).1 = .ok (some v) ∧
          (get_coin_list env8 freshState).cache
            = save_cache env8.cache env8.now "coin_list" v) ∨
        (v = defaultCoinList ∧ defaultCoinList = .arr [btcEntry, ethEntry] ∧
          btcEntry ∈ [btcEntry, ethEntry] ∧ ethEntry ∈ [btcEntry, ethEntry]))) :=
  ⟨fun _ => rfl, c8_coin_list_never_empty env8 freshState (fun _ => rfl)⟩

/-- Counterexample to claim C6 as stated: with an empty cache and a
failing network, get_prices(["zzz"], "usd") takes the no-symbol-
resolves exit and returns the empty map, but the coin-list retrieval
inside it has already performed a network call and mutated the
failure tracker. -/
theorem c6_counterexample :
    (get_prices ["zzz"] "usd" env8 freshState).val = .ok [] ∧
    (get_prices ["zzz"] "usd" env8 freshState).coinCalls = 1 ∧
    (get_prices ["zzz"] "usd" env8 freshState).st ≠ freshState := by
  refine ⟨rfl, rfl, ?_⟩
  intro h
  have h2 : (get_prices ["zzz"] "usd" env8 freshState).st.consecutive_failures = 1 := rfl
  rw [h] at h2
  exact absurd h2 (by decide)

/-- Claim C6 amended: get_prices returns the empty map with no price-
endpoint network call in each of the three cases; with an empty
symbol list or should_skip() true at entry it makes no network call
at all and leaves the tracker untouched, but in the no-symbol-
resolves case the coin-list retrieval may itself have called the
network and updated the tracker. -/
theorem c6_empty_cases (symbols : List String) (vs : String) (env : Env)
    (s : APIState)
    (h : symbols.isEmpty = true ∨ should_skip env.now s = true ∨
      (∃ cl s2i, (get_coin_list env s).val = .ok cl ∧
        build_symbol_to_id cl = .ok s2i ∧
        resolve_ids s2i symbols = .ok ([], []))) :
    (get_prices symbols vs env s).val = .ok [] ∧
    (get_prices symbols vs env s).priceCalls = 0 ∧
    (get_prices symbols vs env s).coinCalls =
      (if symbols.isEmpty || should_skip env.now s then 0
        else (get_coin_list env s).calls) ∧
    (get_prices symbols vs env s).st =
      (if symbols.isEmpty || should_skip env.now s then s
        else (get_coin_list env s).st) := by
  by_cases he : symbols.isEmpty
  · simp [get_prices, he]
  · have he' : symbols.isEmpty = false := by simpa using he
    by_cases hsk : should_skip env.now s
    · simp [get_prices, he', hsk]
    · have hsk' : should_skip env.now s = false := by simpa using hsk
      rcases h with h1 | h2 | ⟨cl, s2i, hcl, hs2i, hres⟩
      · rw [he'] at h1
        exact absurd h1 (by simp)
      · rw [hsk'] at h2
        exact absurd h2 (by simp)
      · simp [get_prices, he', hsk', hcl, hs2i, hres]

/-- Concrete instance of the amended C6: the empty symbol list. -/
theorem c6_witness :
    (([] : List String).isEmpty = true ∨ should_skip env8.now freshState = true ∨
      (∃ cl s2i, (get_coin_list env8 freshState).val = .ok cl ∧
        build_symbol_to_id cl = .ok s2i ∧
        resolve_ids s2i [] = .ok ([], []))) ∧
    ((get_prices [] "usd" env8 freshState).val = .ok [] ∧
      (get_prices [] "usd" env8 freshState).priceCalls = 0 ∧
      (get_prices [] "usd" env8 freshState).coinCalls =
        (if ([] : List String).isEmpty || should_skip env8.now freshState then 0
          else (get_coin_list env8 freshState).calls) ∧
      (get_prices [] "usd" env8 freshState).st =
        (if ([] : List String).isEmpty || should_skip env8.now freshState then freshState
          else (get_coin_list env8 freshState).st)) :=
  ⟨Or.inl rfl, c6_empty_cases [] "usd" env8 freshState (Or.inl rfl)⟩

/-- Claim C3 is violated by the code: float(prices[vs_currency]) on a
non-numeric price value raises TypeError out of get_prices, and a
raising state-change observer propagates out of _make_request (after
being recorded once as a failure). Both exceptions cross the client
boundary. -/
theorem c3_exception_escapes :
    (get_prices ["btc"] "usd" env3 freshState).val =
      .error "TypeError: float() argument must be a string or a real number" ∧
    (make_request 0 freshState (fun _ => .response 200 (some (.obj []))) 3
        (fun _ => some "observer error")).1 = .error "observer error" :=
  ⟨rfl, rfl⟩

lemma lookupJ_dictAssignJ (m : List (JSON × String)) (k : JSON) (v : String)
    (c : JSON) :
    lookupJ (dictAssignJ m k v) c = if c = k then some v else lookupJ m c := by
  induction m with
  | nil =>
    by_cases h : c = k
    · subst h
      simp [dictAssignJ, lookupJ]
    · simp [dictAssignJ, lookupJ, h, Ne.symm h]
  | cons p rest ih =>
    obtain ⟨a, w⟩ := p
    by_cases hak : a = k
    · subst hak
      by_cases hca : c = a
      · subst hca
        simp [dictAssignJ, lookupJ]
      · simp [dictAssignJ, lookupJ, hca, Ne.symm hca]
    · by_cases hac : a = c
      · subst hac
        simp [dictAssignJ, lookupJ, hak]
      · simp [dictAssignJ, lookupJ, hak, hac, ih]

lemma lookupQ_dictAssignQ (m : List (String × ℚ)) (k : String) (v : ℚ)
    (c : String) :
    lookupQ (dictAssignQ m k v) c = if c = k then some v else lookupQ m c := by
  induction m with
  | nil =>
    by_cases h : c = k
    · subst h
      simp [dictAssignQ, lookupQ]
    · simp [dictAssignQ, lookupQ, h, Ne.symm h]
  | cons p rest ih =>
    obtain ⟨a, w⟩ := p
    by_cases hak : a = k
    · subst hak
      by_cases hca : c = a
      · subst hca
        simp [dictAssignQ, lookupQ]
      · simp [dictAssignQ, lookupQ, hca, Ne.symm hca]
    · by_cases hac : a = c
      · subst hac
        simp [dictAssignQ, lookupQ, hak]
      · simp [dictAssignQ, lookupQ, hak, hac, ih]

/-- The symbol_map built by the resolution loop, characterised: under
injectivity of the symbol-to-id mapping on the requested symbols, an
id maps to a lowercase symbol in symbol_map exactly when that symbol
is a lowered requested symbol resolving to that id. Stated with a
generalised accumulator over the already-processed prefix P. -/
lemma resolve_aux_lookup (s2i : List (String × JSON)) (full : List String)
    (hinj : ∀ a ∈ full.map pyStrLower, ∀ b ∈ full.map pyStrLower, ∀ c : JSON,
      lookupField s2i a = some c → lookupField s2i b = some c → a = b) :
    ∀ (rest : List String) (P : List String) (accI ids : List JSON)
      (accM smap : List (JSON × String)),
      (∀ x ∈ rest, x ∈ full) → (∀ x ∈ P, x ∈ full) →
      (∀ (cid : JSON) (s : String), lookupJ accM cid = some s ↔
        (s ∈ P.map pyStrLower ∧ lookupField s2i s = some cid)) →
      resolve_aux s2i rest accI accM = .ok (ids, smap) →
      ∀ (cid : JSON) (s : String), lookupJ smap cid = some s ↔
        (s ∈ (P ++ rest).map pyStrLower ∧ lookupField s2i s = some cid) := by
  intro rest
  induction rest with
  | nil =>
    intro P accI ids accM smap hrest hP hacc hres cid s
    simp only [resolve_aux] at hres
    injection hres with h
    injection h with hI hM
    subst hM
    simpa using hacc cid s
  | cons sym rest ih =>
    intro P accI ids accM smap hrest hP hacc hres cid s
    have hsymfull : sym ∈ full := hrest sym (List.mem_cons_self _ _)
    have hrest2 : ∀ x ∈ rest, x ∈ full :=
      fun x hx => hrest x (List.mem_cons_of_mem _ hx)
    have hP2 : ∀ x ∈ P ++ [sym], x ∈ full := by
      intro x hx
      rcases List.mem_append.mp hx with h | h
      · exact hP x h
      · have : x = sym := by simpa using h
        subst this
        exact hsymfull
    simp only [resolve_aux] at hres
    split at hres
    · rename_i hlk
      have hacc2 : ∀ (cid2 : JSON) (s2 : String), lookupJ accM cid2 = some s2 ↔
          (s2 ∈ (P ++ [sym]).map pyStrLower ∧ lookupField s2i s2 = some cid2) := by
        intro cid2 s2
        rw [hacc]
        constructor
        · rintro ⟨hm, hl⟩
          exact ⟨by rw [List.map_append]; exact List.mem_append_left _ hm, hl⟩
        · rintro ⟨hm, hl⟩
          rw [List.map_append] at hm
          rcases List.mem_append.mp hm with h | h
          · exact ⟨h, hl⟩
          · have : s2 = pyStrLower sym := by simpa using h
            subst this
            rw [hlk] at hl
            exact absurd hl (by simp)
      have hmain := ih (P ++ [sym]) accI ids accM smap hrest2 hP2 hacc2 hres cid s
      rw [hmain]
      rw [List.append_assoc]
      simp
    · rename_i cid0 hlk
      by_cases hh : pyHashable cid0
      · rw [if_pos hh] at hres
        have hacc2 : ∀ (cid2 : JSON) (s2 : String),
            lookupJ (dictAssignJ accM cid0 (pyStrLower sym)) cid2 = some s2 ↔
            (s2 ∈ (P ++ [sym]).map pyStrLower ∧ lookupField s2i s2 = some cid2) := by
          intro cid2 s2
          rw [lookupJ_dictAssignJ]
          by_cases hc : cid2 = cid0
          · subst hc
            rw [if_pos rfl]
            constructor
            · intro h
              injection h with h
              subst h
              refine ⟨?_, hlk⟩
              rw [List.map_append]
              exact List.mem_append_right _ (by simp)
            · rintro ⟨hm, hl⟩
              have hs2full : s2 ∈ full.map pyStrLower := by
                rcases List.mem_map.mp hm with ⟨x, hx, rfl⟩
                exact List.mem_map.mpr ⟨x, hP2 x hx, rfl⟩
              have hsymlow : pyStrLower sym ∈ full.map pyStrLower :=
                List.mem_map.mpr ⟨sym, hsymfull, rfl⟩
              have heq := hinj s2 hs2full (pyStrLower sym) hsymlow cid2 hl hlk
              rw [heq]
          · rw [if_neg hc, hacc]
            constructor
            · rintro ⟨hm, hl⟩
              exact ⟨by rw [List.map_append]; exact List.mem_append_left _ hm, hl⟩
            · rintro ⟨hm, hl⟩
              rw [List.map_append] at hm
              rcases List.mem_append.mp hm with h | h
              · exact ⟨h, hl⟩
              · have : s2 = pyStrLower sym := by simpa using h
                subst this
                rw [hlk] at hl
                injection hl with h2
                exact absurd h2.symm hc
        have hmain := ih (P ++ [sym]) (accI ++ [cid0]) ids
          (dictAssignJ accM cid0 (pyStrLower sym)) smap hrest2 hP2 hacc2 hres cid s
        rw [hmain]
        rw [List.append_assoc]
        simp
      · rw [if_neg hh] at hres
        exact absurd hres (by simp)

/-- The result dict built by the mapping loop, characterised: under a
successful run, a key is present in the result exactly when it was
already in the accumulator or some processed data entry has an id
mapping to that key in symbol_map and carries the requested
currency. -/
lemma map_prices_aux_keys (smap : List (JSON × String)) (vs : String) :
    ∀ (items : List (String × JSON)) (acc res : List (String × ℚ)),
      map_prices_aux smap vs items acc = .ok res →
      ∀ k, (∃ q, lookupQ res k = some q) ↔
        ((∃ q, lookupQ acc k = some q) ∨
          ∃ cs prices, (cs, prices) ∈ items ∧
            lookupJ smap (.str cs) = some k ∧ pyIn vs prices = .ok true) := by
  intro items
  induction items with
  | nil =>
    intro acc res hres k
    simp only [map_prices_aux] at hres
    injection hres with h
    subst h
    simp
  | cons p rest ih =>
    obtain ⟨cs0, prices0⟩ := p
    intro acc res hres k
    simp only [map_prices_aux] at hres
    split at hres
    · -- coin_id not in symbol_map: the entry is skipped
      rename_i hlk
      rw [ih acc res hres k]
      constructor
      · rintro (h | ⟨cs, prices, hm, hl, hp⟩)
        · exact Or.inl h
        · exact Or.inr ⟨cs, prices, List.mem_cons_of_mem _ hm, hl, hp⟩
      · rintro (h | ⟨cs, prices, hm, hl, hp⟩)
        · exact Or.inl h
        · rcases List.mem_cons.mp hm with heq | hm2
          · injection heq with h1 h2
            subst h1
            rw [hlk] at hl
            exact absurd hl (by simp)
          · exact Or.inr ⟨cs, prices, hm2, hl, hp⟩
    · rename_i sym hlk
      split at hres
      · -- pyIn raised: contradiction with a successful run
        exact absurd hres (by simp)
      · -- vs_currency not in prices: the entry is skipped
        rename_i hin
        rw [ih acc res hres k]
        constructor
        · rintro (h | ⟨cs, prices, hm, hl, hp⟩)
          · exact Or.inl h
          · exact Or.inr ⟨cs, prices, List.mem_cons_of_mem _ hm, hl, hp⟩
        · rintro (h | ⟨cs, prices, hm, hl, hp⟩)
          · exact Or.inl h
          · rcases List.mem_cons.mp hm with heq | hm2
            · injection heq with h1 h2
              subst h1
              subst h2
              rw [hin] at hp
              exact absurd hp (by simp)
            · exact Or.inr ⟨cs, prices, hm2, hl, hp⟩
      · -- vs_currency in prices: the entry is assigned
        rename_i hin
        split at hres
        · exact absurd hres (by simp)
        · rename_i pv hsub
          split at hres
          · exact absurd hres (by simp)
          · rename_i q0 hfl
            rw [ih _ res hres k]
            constructor
            · rintro (⟨q, hq⟩ | ⟨cs, prices, hm, hl, hp⟩)
              · rw [lookupQ_dictAssignQ] at hq
                by_cases hk : k = sym
                · subst hk
                  exact Or.inr ⟨cs0, prices0, List.mem_cons_self _ _, hlk, hin⟩
                · rw [if_neg hk] at hq
                  exact Or.inl ⟨q, hq⟩
              · exact Or.inr ⟨cs, prices, List.mem_cons_of_mem _ hm, hl, hp⟩
            · rintro (⟨q, hq⟩ | ⟨cs, prices, hm, hl, hp⟩)
              · by_cases hk : k = sym
                · exact Or.inl ⟨q0, by rw [lookupQ_dictAssignQ, if_pos hk]⟩
                · exact Or.inl ⟨q, by rw [lookupQ_dictAssignQ, if_neg hk]; exact hq⟩
              · rcases List.mem_cons.mp hm with heq | hm2
                · injection heq with h1 h2
                  subst h1
                  rw [hlk] at hl
                  injection hl with h3
                  exact Or.inl ⟨q0, by rw [lookupQ_dictAssignQ, if_pos h3.symm]⟩
                · exact Or.inr ⟨cs, prices, hm2, hl, hp⟩

/-- Claim C7: on a successful price fetch (the call reaches the
request, gets a truthy 2xx dict payload, and the result mapping
completes without raising), the returned map has an entry exactly for
those requested symbols, case-normalised to lowercase, that resolve
to a provider id in symbol_to_id and whose id appears as a key of the
response carrying the requested currency; unresolved symbols are
silently dropped, and every key of the result is the lowercase form
of a requested symbol. The injectivity hypothesis encodes that
distinct requested symbols resolve to distinct provider ids, the
well-formedness of a real coin list. -/
theorem c7_result_keys
    (symbols : List String) (vs k : String) (env : Env) (s : APIState)
    (coin_list : JSON) (s2i : List (String × JSON)) (ids : List JSON)
    (smap : List (JSON × String)) (idsStr : String)
    (dItems : List (String × JSON)) (s2 : APIState) (n : ℕ)
    (res : List (String × ℚ))
    (hne : symbols.isEmpty = false)
    (hskip : should_skip env.now s = false)
    (hcl : (get_coin_list env s).val = .ok coin_list)
    (hs2i : build_symbol_to_id coin_list = .ok s2i)
    (hres : resolve_ids s2i symbols = .ok (ids, smap))
    (hids : ids.isEmpty = false)
    (hjoin : pyJoin ids = .ok idsStr)
    (hreq : make_request env.now (get_coin_list env s).st env.priceOutcomes
        env.retry_attempts env.obs = (.ok (some (.obj dItems)), s2, n))
    (htr : pyTruthy (.obj dItems) = true)
    (hmap : map_prices (.obj dItems) smap vs = .ok res)
    (hinj : ∀ a ∈ symbols.map pyStrLower, ∀ b ∈ symbols.map pyStrLower,
      ∀ c : JSON, lookupField s2i a = some c → lookupField s2i b = some c → a = b) :
    (get_prices symbols vs env s).val = .ok res ∧
    ((∃ q, lookupQ res k = some q) ↔
      (k ∈ symbols.map pyStrLower ∧
        ∃ cs prices, lookupField s2i k = some (.str cs) ∧
          (cs, prices) ∈ dItems ∧ pyIn vs prices = .ok true)) := by
  constructor
  · simp [get_prices, hne, hskip, hcl, hs2i, hres, hids, hjoin, hreq, htr, hmap]
  · have hsm := resolve_aux_lookup s2i symbols hinj symbols [] [] ids [] smap
      (fun x hx => hx) (fun x hx => absurd hx (List.not_mem_nil x))
      (by intro cid s0; simp [lookupJ]) hres
    have hmk := map_prices_aux_keys smap vs dItems [] res
      (by simpa [map_prices] using hmap) k
    rw [hmk]
    constructor
    · rintro (⟨q, hq⟩ | ⟨cs, prices, hm, hl, hp⟩)
      · exact absurd hq (by simp [lookupQ])
      · have h2 := (hsm (.str cs) k).mp hl
        simp only [List.nil_append] at h2
        exact ⟨h2.1, cs, prices, h2.2, hm, hp⟩
    · rintro ⟨hkmem, cs, prices, hl, hm, hp⟩
      refine Or.inr ⟨cs, prices, hm, ?_, hp⟩
      exact (hsm (.str cs) k).mpr ⟨by simpa using hkmem, hl⟩

/-- Concrete instance of C7: requesting ["BTC"] yields exactly the key
"btc". -/
theorem c7_witness :
    (["BTC"].isEmpty = false) ∧
    (should_skip env7.now freshState = false) ∧
    ((get_coin_list env7 freshState).val = .ok (JSON.arr [btcEntry])) ∧
    (build_symbol_to_id (JSON.arr [btcEntry]) = .ok [("btc", .str "bitcoin")]) ∧
    (resolve_ids [("btc", .str "bitcoin")] ["BTC"]
      = .ok ([.str "bitcoin"], [(.str "bitcoin", "btc")])) ∧
    (([JSON.str "bitcoin"] : List JSON).isEmpty = false) ∧
    (pyJoin [.str "bitcoin"] = .ok "bitcoin") ∧
    (make_request env7.now (get_coin_list env7 freshState).st env7.priceOutcomes
        env7.retry_attempts env7.obs =
      (.ok (some (.obj [("bitcoin", .obj [("usd", .num 50000)])])), freshState, 1)) ∧
    (pyTruthy (.obj [("bitcoin", .obj [("usd", .num 50000)])]) = true) ∧
    (map_prices (.obj [("bitcoin", .obj [("usd", .num 50000)])])
        [(.str "bitcoin", "btc")] "usd" = .ok [("btc", 50000)]) ∧
    ((get_prices ["BTC"] "usd" env7 freshState).val = .ok [("btc", 50000)] ∧
      ((∃ q, lookupQ [("btc", (50000 : ℚ))] "btc" = some q) ↔
        ("btc" ∈ (["BTC"].map pyStrLower) ∧
          ∃ cs prices, lookupField [("btc", .str "bitcoin")] "btc" = some (.str cs) ∧
            (cs, prices) ∈ [("bitcoin", JSON.obj [("usd", JSON.num 50000)])] ∧
            pyIn "usd" prices = .ok true))) := by
  have hinj : ∀ a ∈ (["BTC"].map pyStrLower), ∀ b ∈ (["BTC"].map pyStrLower),
      ∀ c : JSON, lookupField [("btc", .str "bitcoin")] a = some c →
        lookupField [("btc", .str "bitcoin")] b = some c → a = b := by
    intro a ha b hb c hc1 hc2
    have hred : (["BTC"].map pyStrLower) = ["btc"] := rfl
    rw [hred] at ha hb
    have ha2 : a = "btc" := by simpa using ha
    have hb2 : b = "btc" := by simpa using hb
    rw [ha2, hb2]
  exact ⟨rfl, rfl, rfl, rfl, rfl, rfl, rfl, rfl, rfl, rfl,
    c7_result_keys ["BTC"] "usd" "btc" env7 freshState (JSON.arr [btcEntry])
      [("btc", .str "bitcoin")] [.str "bitcoin"] [(.str "bitcoin", "btc")] "bitcoin"
      [("bitcoin", JSON.obj [("usd", JSON.num 50000)])] freshState 1 [("btc", 50000)]
      rfl rfl rfl rfl rfl rfl rfl rfl rfl rfl hinj⟩
